import Mathlib

/-!
Verification of the linkerd-await core logic (src/main.rs): the duration
parser, the readiness poller, the orchestrator control flow (disable
override, deadline race, fork-and-wait supervision, shutdown notification)
and the exit-code policy.  Stateful / async code is shallowly embedded as
pure functions over explicit schedules (oracles deciding race winners,
readiness responses and child outcomes) that produce a trace of observable
events plus a final outcome.
-/

namespace LinkerdAwait

/-! ## Duration parser (main.rs, parse_duration) -/

/-- The u64 range bound: magnitudes and products must stay below 2^64. -/
def U64LIMIT : Nat := 2 ^ 64

/-- Whitespace as trimmed by the Rust str::trim (Unicode White_Space). -/
def isRustWhitespace (c : Char) : Bool :=
  (0x9 ≤ c.toNat && c.toNat ≤ 0xD) || c.toNat = 0x20 || c.toNat = 0x85 ||
  c.toNat = 0xA0 || c.toNat = 0x1680 ||
  (0x2000 ≤ c.toNat && c.toNat ≤ 0x200A) ||
  c.toNat = 0x2028 || c.toNat = 0x2029 || c.toNat = 0x202F ||
  c.toNat = 0x205F || c.toNat = 0x3000

/-- Removes leading and trailing whitespace, as str::trim does. -/
def rustTrim (s : List Char) : List Char :=
  ((s.dropWhile isRustWhitespace).reverse.dropWhile isRustWhitespace).reverse

/-- char::is_ascii_digit. -/
def isAsciiDigit (c : Char) : Bool :=
  48 ≤ c.toNat && c.toNat ≤ 57

/-- Index of the last ASCII digit in the list, as
s.rfind(char::is_ascii_digit) returns it (here as a character index; the
byte index splits the string at the same place because an ASCII digit
occupies one byte). -/
def rfindDigit : List Char → Option Nat
  | [] => none
  | c :: rest =>
    match rfindDigit rest with
    | some i => some (i + 1)
    | none => if isAsciiDigit c then some 0 else none

/-- Numeric value of a decimal digit string, most significant first. -/
def digitsVal (l : List Char) : Nat :=
  l.foldl (fun acc c => acc * 10 + (c.toNat - '0'.toNat)) 0

/-- u64::from_str: an optional leading plus sign, then one or more ASCII
digits, value at most u64::MAX; anything else (empty, stray characters,
overflow) is an error. -/
def u64FromStr (s : List Char) : Option Nat :=
  let digits := if s.head? = some '+' then s.tail else s
  if digits.isEmpty then none
  else if digits.all isAsciiDigit then
    if digitsVal digits < U64LIMIT then some (digitsVal digits) else none
  else none

/-- The single error value of the parser. -/
inductive InvalidDuration
  | mk
deriving DecidableEq, Repr

/-- Unit-suffix factor in milliseconds; a missing suffix is allowed only
for a zero magnitude, where the factor 0 is used. -/
def unitMultiplier (unit : List Char) (magnitude : Nat) : Option Nat :=
  if unit = [] then (if magnitude = 0 then some 0 else none)
  else if unit = ['m', 's'] then some 1
  else if unit = ['s'] then some 1000
  else if unit = ['m'] then some (1000 * 60)
  else if unit = ['h'] then some (1000 * 60 * 60)
  else if unit = ['d'] then some (1000 * 60 * 60 * 24)
  else none

/-- parse_duration from main.rs; the result is the duration in
milliseconds (Duration::from_millis of the checked product). -/
def parse_duration (s : String) : Except InvalidDuration Nat :=
  let t := rustTrim s.data
  match rfindDigit t with
  | none => .error .mk
  | some index =>
    let magnitude := t.take (index + 1)
    let unit := t.drop (index + 1)
    match u64FromStr magnitude with
    | none => .error .mk
    | some m =>
      match unitMultiplier unit m with
      | none => .error .mk
      | some mult =>
        if m * mult < U64LIMIT then .ok (m * mult) else .error .mk

/-! ## Exit codes (main.rs, sysexits constants) -/

/-- EX_OSERR from sysexits. -/
def EX_OSERR : Int := 71

/-- EX_UNAVAILABLE from sysexits. -/
def EX_UNAVAILABLE : Int := 69

/-! ## Readiness poller (main.rs, await_ready) -/

/-- Outcome of one HTTP GET attempt against the /ready endpoint: the
fixed 5-second per-attempt timer elapsed, the connection failed, or a
response with the given status code arrived. -/
inductive AttemptResult
  | timedOut
  | connError
  | response (status : Nat)
deriving DecidableEq, Repr

/-- The match arm `Ok(Ok(ref rsp)) if rsp.status().is_success()`: an
attempt counts as ready exactly when a response arrived and its status is
in the 2xx range (http StatusCode::is_success, 200..300); a timeout or a
connection error never does. -/
def isReady : AttemptResult → Bool
  | .response s => 200 ≤ s && s < 300
  | _ => false

/-- The await_ready retry loop, fuel-bounded, starting from attempt i:
issue a request, return if ready, otherwise sleep the constant backoff and
retry.  Produces (number of requests issued, total milliseconds slept);
none when the loop does not return within the fuel (it never fails on its
own, it only keeps retrying). -/
def await_ready_from (resp : Nat → AttemptResult) (backoff : Nat) :
    Nat → Nat → Option (Nat × Nat)
  | _, 0 => none
  | i, fuel + 1 =>
    if isReady (resp i) then some (1, 0)
    else
      match await_ready_from resp backoff (i + 1) fuel with
      | some (reqs, slept) => some (reqs + 1, slept + backoff)
      | none => none

/-- await_ready from main.rs as a function of the per-attempt responses. -/
def await_ready (resp : Nat → AttemptResult) (backoff : Nat) (fuel : Nat) :
    Option (Nat × Nat) :=
  await_ready_from resp backoff 0 fuel

/-! ## Process supervision (main.rs, fork_with_sigterm) -/

/-- A child process exit status, as std ExitStatus exposes it: a normal
exit with a code, or termination by a signal (no code). -/
inductive ExitStatus
  | exited (code : Int)
  | signaled (sig : Nat)
deriving DecidableEq, Repr

/-- ExitStatus::from_raw on a raw wait status: the low 7 bits are zero for
a normal exit (code in the next byte), otherwise the process was
terminated by the signal in the low 7 bits. -/
def ExitStatus.fromRaw (raw : Nat) : ExitStatus :=
  if raw % 128 = 0 then .exited (raw / 256) else .signaled (raw % 128)

/-- ExitStatus::code(): the numeric exit code, when the child exited
normally. -/
def ExitStatus.code : ExitStatus → Option Int
  | .exited c => some c
  | .signaled _ => none

/-- Observable events of one invocation, in program order. -/
inductive Event
  | readyRequest
  | skipDiag (reason : String)
  | timeoutDiag
  | spawnChild
  | spawnFailDiag
  | forwardSigterm
  | forwardFailDiag
  | childExited
  | shutdownPost
  | execCmd (cmd : String)
  | execFailDiag
deriving DecidableEq, Repr

/-- Oracle for one fork_with_sigterm run: whether Command::spawn
succeeds, whether the SIGTERM arm wins the select against child.wait,
whether child.id() still yields a PID at that point, whether kill
delivers, and what child.wait finally returns. -/
structure ForkSched where
  spawnOk : Bool
  sigtermFirst : Bool
  idAvailable : Bool
  killOk : Bool
  waitResult : Except Unit ExitStatus
deriving Repr

/-- fork_with_sigterm from main.rs: spawn the child (a spawn failure is
reported and mapped to Ok(ExitStatus::from_raw(EX_OSERR))); then race
child.wait against the SIGTERM stream; on a SIGTERM, forward it once to
the child PID (a delivery failure is logged, non-fatal) and block again
on child.wait alone. -/
def fork_with_sigterm (s : ForkSched) : List Event × Except Unit ExitStatus :=
  if !s.spawnOk then
    ([.spawnFailDiag], .ok (ExitStatus.fromRaw 71))
  else if !s.sigtermFirst then
    ([.spawnChild, .childExited], s.waitResult)
  else
    let fwd : List Event :=
      if s.idAvailable then
        if s.killOk then [.forwardSigterm] else [.forwardSigterm, .forwardFailDiag]
      else []
    ([.spawnChild] ++ fwd ++ [.childExited], s.waitResult)

/-! ## Shutdown notifier (main.rs, send_shutdown) -/

/-- send_shutdown from main.rs: one POST to /shutdown whose result — any
error, status or timeout — is bound to _ and discarded. -/
def send_shutdown (_result : AttemptResult) : List Event × Unit :=
  ([.shutdownPost], ())

/-! ## Orchestrator (main.rs, main) -/

/-- The two environment variables consulted for the disable override. -/
structure Env where
  awaitDisabledVar : Option String
  disabledVar : Option String
deriving Repr

/-- linkerd_disabled_reason from main.rs: LINKERD_AWAIT_DISABLED filtered
to non-empty, or else LINKERD_DISABLED filtered to non-empty. -/
def linkerd_disabled_reason (e : Env) : Option String :=
  (e.awaitDisabledVar.filter (fun v => !v.isEmpty)).orElse
    (fun _ => e.disabledVar.filter (fun v => !v.isEmpty))

/-- The configuration clap hands to main (durations in milliseconds). -/
structure Args where
  port : Nat
  backoff : Nat
  shutdown : Bool
  verbose : Bool
  timeout : Option Nat
  timeoutFatal : Bool
  cmd : Option String
  cmdArgs : List String
deriving Repr

/-- How an invocation ends: a process::exit with a code, a successful
exec (the image is replaced and this program never returns), a normal
return from main (exit 0), or a panic (an .expect failed). -/
inductive Outcome
  | exit (code : Int)
  | execed (cmd : String) (args : List String)
  | normal
  | panic
deriving DecidableEq, Repr

/-- Oracle for one whole run: the readiness responses and the loop fuel,
whether the deadline timer wins the select (and how many readiness
requests were already issued by the abandoned branch), the fork
schedule, the discarded /shutdown response and whether exec succeeds. -/
structure Sched where
  resp : Nat → AttemptResult
  readyFuel : Nat
  timerWins : Bool
  requestsBeforeTimer : Nat
  fork : ForkSched
  shutdownResp : AttemptResult
  execOk : Bool

/-- exec from main.rs: replace the process image (never returns on
success); on failure print a diagnostic and exit EX_OSERR. -/
def exec_run (cmd : String) (args : List String) (execOk : Bool) :
    List Event × Outcome :=
  if execOk then ([.execCmd cmd], .execed cmd args)
  else ([.execCmd cmd, .execFailDiag], .exit EX_OSERR)

/-- The tail of main, after the disabled-reason match: exec the command
when one is given, otherwise return normally. -/
def main_tail (a : Args) (s : Sched) : List Event × Outcome :=
  match a.cmd with
  | some cmd => exec_run cmd a.cmdArgs s.execOk
  | none => ([], .normal)

/-- The `if shutdown` block inside the ready path of main: fork the
command proxying SIGTERM, send the shutdown request to the proxy, then
exit with the child code when determinate and EX_OSERR otherwise; without
--shutdown, fall through to the tail of main. -/
def post_gate (a : Args) (s : Sched) : List Event × Outcome :=
  if a.shutdown then
    match a.cmd with
    | none => ([], .panic)
    | some _ =>
      let forked := fork_with_sigterm s.fork
      let shut := send_shutdown s.shutdownResp
      let ev := forked.1 ++ shut.1
      match forked.2 with
      | .ok status =>
        match status.code with
        | some code => (ev, .exit code)
        | none => (ev, .exit EX_OSERR)
      | .error _ => (ev, .exit EX_OSERR)
  else main_tail a s

/-- Whether the await_timeout future can ever fire: a timeout is
configured and non-zero (otherwise it is futures::future::pending). -/
def timerArmed (a : Args) : Bool :=
  match a.timeout with
  | some t => t ≠ 0
  | none => false

/-- main from main.rs: consult the disable override; when absent, race
await_ready against the optional deadline; on a deadline diagnose and
either exit EX_UNAVAILABLE (fatal) or continue; then run the shutdown
block or fall through to exec.  none means the readiness loop did not
finish within the fuel. -/
def main_run (a : Args) (e : Env) (s : Sched) :
    Option (List Event × Outcome) :=
  match linkerd_disabled_reason e with
  | some reason =>
    let pre : List Event := if a.verbose then [.skipDiag reason] else []
    let tail := main_tail a s
    some (pre ++ tail.1, tail.2)
  | none =>
    if s.timerWins && timerArmed a then
      let pre := List.replicate s.requestsBeforeTimer Event.readyRequest
        ++ [Event.timeoutDiag]
      if a.timeoutFatal then some (pre, .exit EX_UNAVAILABLE)
      else
        let rest := post_gate a s
        some (pre ++ rest.1, rest.2)
    else
      match await_ready s.resp a.backoff s.readyFuel with
      | none => none
      | some (reqs, _) =>
        let pre := List.replicate reqs Event.readyRequest
        let rest := post_gate a s
        some (pre ++ rest.1, rest.2)

/-! ## Concrete fixtures used to instantiate the theorems -/

/-- An endpoint that is ready at once. -/
def readyResp : Nat → AttemptResult := fun _ => .response 200

/-- A child that is spawned, never signalled, and exits with code 7. -/
def forkOk7 : ForkSched := ⟨true, false, true, true, .ok (.exited 7)⟩

/-- A child whose wait result is an error (exit status undetermined). -/
def forkWaitErr : ForkSched := ⟨true, false, true, true, .error ()⟩

/-- A child that receives a forwarded SIGTERM and then exits with 3. -/
def forkSig3 : ForkSched := ⟨true, true, true, true, .ok (.exited 3)⟩

/-- A baseline schedule: immediate readiness, supervised child exits 7. -/
def schedBase : Sched := ⟨readyResp, 1, false, 0, forkOk7, .connError, true⟩

/-- Arguments requesting supervision of the command "app". -/
def argsShut : Args := ⟨4191, 1000, true, false, none, true, some "app", []⟩

/-- Arguments with a fatal five-second readiness timeout. -/
def argsShutTimeout : Args :=
  ⟨4191, 1000, true, false, some 5000, true, some "app", []⟩

/-- No disable environment variable is set. -/
def envNone : Env := ⟨none, none⟩

/-- The primary disable environment variable is set (non-empty). -/
def envDisabled : Env := ⟨some "manual", none⟩

/-! ## Theorems -/

theorem main_run_ready_path (a : Args) (e : Env) (s : Sched)
    (tr : List Event) (out : Outcome)
    (hd : linkerd_disabled_reason e = none)
    (ht : s.timerWins = false)
    (hrun : main_run a e s = some (tr, out)) :
    ∃ reqs, tr = List.replicate reqs Event.readyRequest ++ (post_gate a s).1
      ∧ out = (post_gate a s).2 := by
  unfold main_run at hrun
  rw [hd] at hrun
  simp only [ht, Bool.false_and, Bool.if_false_left, Bool.and_self] at hrun
  rcases h : await_ready s.resp a.backoff s.readyFuel with _ | ⟨reqs, slept⟩ <;>
    rw [h] at hrun
  · exact absurd hrun (by simp)
  · refine ⟨reqs, ?_, ?_⟩ <;>
    · have hpair := Option.some.inj hrun
      injection hpair with hfst hsnd
      first
        | exact hfst.symm
        | exact hsnd.symm

theorem post_gate_shutdown (a : Args) (s : Sched) (c : String)
    (hs : a.shutdown = true) (hc : a.cmd = some c) :
    post_gate a s = ((fork_with_sigterm s.fork).1 ++ [Event.shutdownPost],
      match (fork_with_sigterm s.fork).2 with
      | .ok st =>
        match st.code with
        | some code => Outcome.exit code
        | none => Outcome.exit EX_OSERR
      | .error _ => Outcome.exit EX_OSERR) := by
  unfold post_gate
  rw [hs, hc]
  simp only [send_shutdown]
  rcases hf : fork_with_sigterm s.fork with ⟨ev, ex⟩
  rcases ex with err | st
  · rfl
  · rcases hcode : st.code with _ | code <;> simp [hcode]

theorem await_ready_from_exact (resp : Nat → AttemptResult) (backoff : Nat)
    (N : Nat) :
    ∀ i fuel, (∀ k, k < N → isReady (resp (i + k)) = false) →
      isReady (resp (i + N)) = true → N < fuel →
      await_ready_from resp backoff i fuel = some (N + 1, N * backoff) := by
  induction N with
  | zero =>
    intro i fuel _ hsucc hfuel
    match fuel, hfuel with
    | fuel + 1, _ =>
      have h : isReady (resp i) = true := by simpa using hsucc
      simp [await_ready_from, h]
  | succ n ih =>
    intro i fuel hfail hsucc hfuel
    match fuel, hfuel with
    | fuel + 1, hfuel =>
      have h0 : isReady (resp i) = false := by
        have := hfail 0 (Nat.succ_pos n)
        simpa using this
      have hrec : await_ready_from resp backoff (i + 1) fuel
          = some (n + 1, n * backoff) := by
        apply ih
        · intro k hk
          have := hfail (k + 1) (Nat.succ_lt_succ hk)
          simpa [Nat.add_assoc, Nat.add_comm 1 k] using this
        · have : i + 1 + n = i + (n + 1) := by omega
          rw [this]; exact hsucc
        · omega
      simp only [await_ready_from, h0, hrec]
      refine congrArg some ?_
      refine Prod.ext rfl ?_
      simp [Nat.succ_mul, Nat.add_comm]

theorem digit_not_ws (c : Char) (h : isAsciiDigit c = true) :
    isRustWhitespace c = false := by
  simp only [isAsciiDigit, Bool.and_eq_true, decide_eq_true_eq] at h
  simp only [isRustWhitespace, Bool.or_eq_false_iff, Bool.and_eq_false_iff,
    decide_eq_false_iff_not]
  omega

theorem dropWhile_all_append (p : Char → Bool) (ws l : List Char)
    (h : ws.all p = true) : (ws ++ l).dropWhile p = l.dropWhile p := by
  induction ws with
  | nil => rfl
  | cons c rest ih =>
    simp only [List.all_cons, Bool.and_eq_true] at h
    simp [List.dropWhile_cons, h.1, ih h.2]

theorem dropWhile_all_eq_nil (p : Char → Bool) (l : List Char)
    (h : l.all p = true) : l.dropWhile p = [] := by
  induction l with
  | nil => rfl
  | cons c rest ih =>
    simp only [List.all_cons, Bool.and_eq_true] at h
    simp [List.dropWhile_cons, h.1, ih h.2]

theorem rustTrim_all_ws (l : List Char)
    (h : l.all isRustWhitespace = true) : rustTrim l = [] := by
  simp [rustTrim, dropWhile_all_eq_nil _ _ h]

theorem rustTrim_sandwich (ws1 ws2 l : List Char)
    (h1 : ws1.all isRustWhitespace = true)
    (h2 : ws2.all isRustWhitespace = true)
    (hne : l ≠ [])
    (hhd : isRustWhitespace (l.head hne) = false)
    (hlast : isRustWhitespace (l.getLast hne) = false) :
    rustTrim (ws1 ++ l ++ ws2) = l := by
  obtain ⟨c, l0, rfl⟩ := List.exists_cons_of_ne_nil hne
  have hstep1 : ((ws1 ++ (c :: l0) ++ ws2).dropWhile isRustWhitespace)
      = (c :: l0) ++ ws2 := by
    rw [List.append_assoc, dropWhile_all_append _ _ _ h1]
    simp only [List.cons_append, List.dropWhile_cons]
    simp only [List.head_cons] at hhd
    simp [hhd]
  have hstep2 : (((c :: l0) ++ ws2).reverse.dropWhile isRustWhitespace)
      = (c :: l0).reverse := by
    rw [List.reverse_append, dropWhile_all_append _ _ _ (by simp [h2])]
    have hconcat : (c :: l0) = (c :: l0).dropLast ++ [(c :: l0).getLast hne] :=
      (List.dropLast_append_getLast hne).symm
    rw [hconcat, List.reverse_append]
    simp only [List.reverse_cons, List.reverse_nil, List.nil_append,
      List.cons_append, List.dropWhile_cons, List.nil_append]
    simp [hlast]
  unfold rustTrim
  rw [hstep1, hstep2, List.reverse_reverse]

theorem rfindDigit_cons (c : Char) (l : List Char) :
    rfindDigit (c :: l) =
      match rfindDigit l with
      | some i => some (i + 1)
      | none => if isAsciiDigit c then some 0 else none := rfl

theorem rfindDigit_eq_none (l : List Char)
    (h : ∀ c ∈ l, isAsciiDigit c = false) : rfindDigit l = none := by
  induction l with
  | nil => rfl
  | cons c rest ih =>
    have hc := h c (List.mem_cons_self c rest)
    have hrest := ih (fun d hd => h d (List.mem_cons_of_mem c hd))
    simp [rfindDigit, hrest, hc]

theorem rfindDigit_append (ds us : List Char) (hne : ds ≠ [])
    (hds : ds.all isAsciiDigit = true)
    (hus : ∀ c ∈ us, isAsciiDigit c = false) :
    rfindDigit (ds ++ us) = some (ds.length - 1) := by
  induction ds with
  | nil => exact absurd rfl hne
  | cons c rest ih =>
    simp only [List.all_cons, Bool.and_eq_true] at hds
    cases rest with
    | nil =>
      have hnone : rfindDigit us = rfindDigit ([] ++ us) := rfl
      simp [rfindDigit, rfindDigit_eq_none us hus, hds.1]
    | cons d rest2 =>
      have hrec := ih (by simp) hds.2
      rw [List.cons_append, rfindDigit_cons, hrec]
      simp

theorem u64FromStr_digits (ds : List Char) (hne : ds ≠ [])
    (hds : ds.all isAsciiDigit = true) :
    u64FromStr ds =
      if digitsVal ds < U64LIMIT then some (digitsVal ds) else none := by
  obtain ⟨c, rest, rfl⟩ := List.exists_cons_of_ne_nil hne
  have hc : isAsciiDigit c = true := by
    simp only [List.all_cons, Bool.and_eq_true] at hds
    exact hds.1
  have hplus : c ≠ '+' := by
    intro h
    rw [h] at hc
    simp [isAsciiDigit] at hc
  unfold u64FromStr
  simp [List.head?, hplus, hds]

theorem parse_duration_split (ws1 ws2 ds u : List Char)
    (h1 : ws1.all isRustWhitespace = true)
    (h2 : ws2.all isRustWhitespace = true)
    (hne : ds ≠ [])
    (hds : ds.all isAsciiDigit = true)
    (hu : ∀ c ∈ u, isAsciiDigit c = false)
    (huw : ∀ c ∈ u, isRustWhitespace c = false) :
    parse_duration ⟨ws1 ++ (ds ++ u) ++ ws2⟩ =
      match u64FromStr ds with
      | none => .error .mk
      | some m =>
        match unitMultiplier u m with
        | none => .error .mk
        | some mult =>
          if m * mult < U64LIMIT then .ok (m * mult) else .error .mk := by
  have hcore : ds ++ u ≠ [] := by
    intro h
    exact hne (List.append_eq_nil.mp h).1
  have hnw : ∀ c ∈ ds ++ u, isRustWhitespace c = false := by
    intro c hc
    rcases List.mem_append.mp hc with hcds | hcu
    · exact digit_not_ws c (List.all_eq_true.mp hds c hcds)
    · exact huw c hcu
  have hhd : isRustWhitespace ((ds ++ u).head hcore) = false :=
    hnw _ (List.head_mem hcore)
  have hlast : isRustWhitespace ((ds ++ u).getLast hcore) = false :=
    hnw _ (List.getLast_mem hcore)
  have hlen : ds.length - 1 + 1 = ds.length :=
    Nat.succ_pred_eq_of_pos (List.length_pos.mpr hne)
  unfold parse_duration
  simp only [rustTrim_sandwich ws1 ws2 (ds ++ u) h1 h2 hcore hhd hlast,
    rfindDigit_append ds u hne hds hu, hlen, List.take_left, List.drop_left]

/-- Claim C7: for every valid (magnitude, unit) pair with unit among ms,
s, m, h and d, parsing the canonical string of the magnitude digits
followed by the unit, optionally surrounded by whitespace, yields exactly
magnitude times the unit factor in milliseconds (factors 1, 1000, 60000,
3600000 and 86400000); in particular "10d" parses to 864000 seconds,
"1ms" to one millisecond, and "0" and "0s" both to the zero duration. -/
theorem c7_duration_roundtrip (ws1 ws2 ds u : List Char) (factor : Nat)
    (h1 : ws1.all isRustWhitespace = true)
    (h2 : ws2.all isRustWhitespace = true)
    (hne : ds ≠ [])
    (hds : ds.all isAsciiDigit = true)
    (hu : (u = ['m', 's'] ∧ factor = 1) ∨ (u = ['s'] ∧ factor = 1000)
        ∨ (u = ['m'] ∧ factor = 60000) ∨ (u = ['h'] ∧ factor = 3600000)
        ∨ (u = ['d'] ∧ factor = 86400000))
    (hfit : digitsVal ds * factor < U64LIMIT) :
    parse_duration ⟨ws1 ++ (ds ++ u) ++ ws2⟩ = .ok (digitsVal ds * factor)
    ∧ parse_duration "10d" = .ok (864000 * 1000)
    ∧ parse_duration "1ms" = .ok 1
    ∧ parse_duration "0" = .ok 0
    ∧ parse_duration "0s" = .ok 0 := by
  refine ⟨?_, by rfl, by rfl, by rfl, by rfl⟩
  have hfac1 : 0 < factor := by
    rcases hu with ⟨_, rfl⟩ | ⟨_, rfl⟩ | ⟨_, rfl⟩ | ⟨_, rfl⟩ | ⟨_, rfl⟩ <;> omega
  have hmag : digitsVal ds < U64LIMIT :=
    lt_of_le_of_lt (Nat.le_mul_of_pos_right _ hfac1) hfit
  rcases hu with ⟨rfl, rfl⟩ | ⟨rfl, rfl⟩ | ⟨rfl, rfl⟩ | ⟨rfl, rfl⟩ | ⟨rfl, rfl⟩ <;>
  · rw [parse_duration_split ws1 ws2 ds _ h1 h2 hne hds (by decide) (by decide),
      u64FromStr_digits ds hne hds]
    simp [hmag, unitMultiplier, hfit]

/-- Witness for C7: parsing " 42s" (with a leading blank) yields 42000
milliseconds. -/
theorem c7_duration_roundtrip_witness :
    parse_duration ⟨[' '] ++ (['4', '2'] ++ ['s']) ++ []⟩
      = .ok (digitsVal ['4', '2'] * 1000) :=
  (c7_duration_roundtrip [' '] [] ['4', '2'] ['s'] 1000 (by decide) (by decide)
    (by decide) (by decide) (Or.inr (Or.inl ⟨rfl, rfl⟩)) (by decide)).1

theorem parse_duration_bare (ds : List Char) (hne : ds ≠ [])
    (hds : ds.all isAsciiDigit = true) :
    parse_duration ⟨ds⟩ =
      match u64FromStr ds with
      | none => .error .mk
      | some m =>
        match unitMultiplier [] m with
        | none => .error .mk
        | some mult =>
          if m * mult < U64LIMIT then .ok (m * mult) else .error .mk := by
  have h := parse_duration_split [] [] ds [] (by decide) (by decide) hne hds
    (by simp) (by simp)
  simpa using h

/-- Claim C8: the duration parser fails with the single InvalidDuration
error on every malformed input: the empty string, whitespace-only
strings, strings without a digit such as "x", a bare positive integer
such as "1", and unrecognized suffixes such as "0x" and "123x"; a bare
unit-less integer is accepted exactly when its value is zero. -/
theorem c8_duration_rejects :
    parse_duration "" = .error .mk
    ∧ (∀ l : List Char, l.all isRustWhitespace = true →
        parse_duration ⟨l⟩ = .error .mk)
    ∧ parse_duration "x" = .error .mk
    ∧ parse_duration "1" = .error .mk
    ∧ parse_duration "0x" = .error .mk
    ∧ parse_duration "123x" = .error .mk
    ∧ (∀ ds : List Char, ds ≠ [] → ds.all isAsciiDigit = true →
        digitsVal ds ≠ 0 → parse_duration ⟨ds⟩ = .error .mk)
    ∧ (∀ ds : List Char, ds ≠ [] → ds.all isAsciiDigit = true →
        digitsVal ds = 0 → parse_duration ⟨ds⟩ = .ok 0) := by
  refine ⟨by rfl, ?_, by rfl, by rfl, by rfl, by rfl, ?_, ?_⟩
  · intro l h
    unfold parse_duration
    simp [rustTrim_all_ws l h, rfindDigit]
  · intro ds hne hds hzero
    rw [parse_duration_bare ds hne hds, u64FromStr_digits ds hne hds]
    rcases Nat.lt_or_ge (digitsVal ds) U64LIMIT with hlt | hge
    · simp [hlt, unitMultiplier, hzero]
    · simp [Nat.not_lt_of_ge hge]
  · intro ds hne hds hzero
    rw [parse_duration_bare ds hne hds, u64FromStr_digits ds hne hds, hzero]
    simp [unitMultiplier, U64LIMIT]

/-- Witness for C8: the whitespace-only string of one blank and one tab
is rejected, and the bare positive integer written "007" is rejected. -/
theorem c8_duration_rejects_witness :
    parse_duration ⟨[' ', '\t']⟩ = .error .mk
    ∧ parse_duration ⟨['0', '0', '7']⟩ = .error .mk :=
  ⟨c8_duration_rejects.2.1 [' ', '\t'] (by decide),
   c8_duration_rejects.2.2.2.2.2.2.1 ['0', '0', '7'] (by decide) (by decide)
     (by decide)⟩

theorem parse_duration_overflow_aux (ds u : List Char) (factor : Nat)
    (hne : ds ≠ []) (hds : ds.all isAsciiDigit = true)
    (hu1 : ∀ c ∈ u, isAsciiDigit c = false)
    (hu2 : ∀ c ∈ u, isRustWhitespace c = false)
    (hum : ∀ m, unitMultiplier u m = some factor)
    (hover : U64LIMIT ≤ digitsVal ds * factor) :
    parse_duration ⟨ds ++ u⟩ = .error .mk := by
  have h := parse_duration_split [] [] ds u (by decide) (by decide) hne hds
    hu1 hu2
  simp only [List.nil_append, List.append_nil] at h
  rw [h, u64FromStr_digits ds hne hds]
  rcases Nat.lt_or_ge (digitsVal ds) U64LIMIT with hlt | hge
  · rw [if_pos hlt]
    simp only [hum (digitsVal ds)]
    rw [if_neg (Nat.not_lt_of_ge hover)]
  · rw [if_neg (Nat.not_lt_of_ge hge)]

/-- Claim C9: when magnitude times unit factor exceeds the u64 range in
milliseconds, parsing fails with the InvalidDuration error instead of
wrapping around; the string of u64::MAX with suffix s is rejected while
the same magnitude with suffix ms is accepted as the maximal duration. -/
theorem c9_duration_overflow :
    parse_duration "18446744073709551615s" = .error .mk
    ∧ parse_duration "18446744073709551615ms" = .ok 18446744073709551615
    ∧ (∀ ds u factor, ds ≠ [] → ds.all isAsciiDigit = true →
        ((u = ['m', 's'] ∧ factor = 1) ∨ (u = ['s'] ∧ factor = 1000)
          ∨ (u = ['m'] ∧ factor = 60000) ∨ (u = ['h'] ∧ factor = 3600000)
          ∨ (u = ['d'] ∧ factor = 86400000)) →
        U64LIMIT ≤ digitsVal ds * factor →
        parse_duration ⟨ds ++ u⟩ = .error .mk) := by
  refine ⟨by rfl, by rfl, ?_⟩
  intro ds u factor hne hds hu hover
  rcases hu with ⟨rfl, rfl⟩ | ⟨rfl, rfl⟩ | ⟨rfl, rfl⟩ | ⟨rfl, rfl⟩ | ⟨rfl, rfl⟩ <;>
    exact parse_duration_overflow_aux _ _ _ hne hds (by decide) (by decide)
      (fun _ => rfl) hover

/-- Witness for C9: the two-day duration written with nineteen trailing
zeros overflows the u64 millisecond range and is rejected. -/
theorem c9_duration_overflow_witness :
    parse_duration
      ⟨['2', '0', '0', '0', '0', '0', '0', '0', '0', '0', '0', '0', '0',
        '0', '0', '0', '0', '0', '0', '0'] ++ ['d']⟩ = .error .mk :=
  c9_duration_overflow.2.2
    ['2', '0', '0', '0', '0', '0', '0', '0', '0', '0', '0', '0', '0',
      '0', '0', '0', '0', '0', '0', '0'] ['d'] 86400000 (by decide) (by decide)
    (Or.inr (Or.inr (Or.inr (Or.inr ⟨rfl, rfl⟩)))) (by decide)

/-- Claim C10: parse_duration is total — on every string it returns
either an Ok duration (always below the u64 bound) or the
InvalidDuration error, never anything else; the character rfind locates
is an ASCII digit, hence a single UTF-8 byte, so splitting right after
it is a valid boundary; and the unit-less branch only ever uses factor
0 for a zero magnitude. -/
theorem c10_parse_duration_total :
    (∀ s : String, (∃ v, parse_duration s = .ok v ∧ v < U64LIMIT)
      ∨ parse_duration s = .error .mk)
    ∧ (∀ l i, rfindDigit l = some i →
        ∃ c, l.get? i = some c ∧ isAsciiDigit c = true ∧ c.toNat < 128)
    ∧ (∀ m k, unitMultiplier [] m = some k → m = 0 ∧ k = 0) := by
  refine ⟨?_, ?_, ?_⟩
  · intro s
    rcases h1 : rfindDigit (rustTrim s.data) with _ | i
    · right; simp [parse_duration, h1]
    · rcases h2 : u64FromStr ((rustTrim s.data).take (i + 1)) with _ | m
      · right; simp [parse_duration, h1, h2]
      · rcases h3 : unitMultiplier ((rustTrim s.data).drop (i + 1)) m
            with _ | mult
        · right; simp [parse_duration, h1, h2, h3]
        · rcases Nat.lt_or_ge (m * mult) U64LIMIT with hlt | hge
          · left
            exact ⟨m * mult, by simp [parse_duration, h1, h2, h3, hlt], hlt⟩
          · right
            simp [parse_duration, h1, h2, h3, Nat.not_lt_of_ge hge]
  · intro l
    induction l with
    | nil => intro i h; exact absurd h (by simp [rfindDigit])
    | cons c rest ih =>
      intro i h
      rw [rfindDigit_cons] at h
      rcases hr : rfindDigit rest with _ | j
      · rw [hr] at h
        rcases hd : isAsciiDigit c with _ | _
        · rw [hd] at h; simp at h
        · rw [hd] at h
          simp only [if_true] at h
          have hi : i = 0 := by
            have := h
            simp at this
            omega
          subst hi
          refine ⟨c, by simp, hd, ?_⟩
          simp only [isAsciiDigit, Bool.and_eq_true, decide_eq_true_eq] at hd
          omega
      · rw [hr] at h
        have hi : i = j + 1 := by
          have := h
          simp at this
          omega
        subst hi
        obtain ⟨d, hget, hdig, hbyte⟩ := ih j hr
        exact ⟨d, by simpa using hget, hdig, hbyte⟩
  · intro m k h
    by_cases hm0 : m = 0
    · subst hm0
      simp [unitMultiplier] at h
      exact ⟨rfl, by omega⟩
    · simp [unitMultiplier, hm0] at h

/-- Witness for C10: rfind on the list of characters of "a7b" locates
the digit 7 at index 1, an ASCII digit fitting one byte. -/
theorem c10_parse_duration_total_witness :
    ∃ c, ['a', '7', 'b'].get? 1 = some c ∧ isAsciiDigit c = true
      ∧ c.toNat < 128 :=
  c10_parse_duration_total.2.1 ['a', '7', 'b'] 1 (by rfl)

/-- Claim C2: in fork-and-wait mode, when the supervised child produced
a determinate numeric exit code the program exits with exactly that
code; otherwise — child killed by a signal with no numeric code, wait
error, or spawn failure — it exits with the reserved OS-error code 71. -/
theorem c2_exit_code_propagation (a : Args) (e : Env) (s : Sched)
    (c : String) (tr : List Event) (out : Outcome)
    (hd : linkerd_disabled_reason e = none)
    (ht : s.timerWins = false)
    (hs : a.shutdown = true)
    (hc : a.cmd = some c)
    (hrun : main_run a e s = some (tr, out)) :
    (∀ st code, (fork_with_sigterm s.fork).2 = .ok st →
        st.code = some code → out = .exit code)
    ∧ (∀ st, (fork_with_sigterm s.fork).2 = .ok st → st.code = none →
        out = .exit EX_OSERR)
    ∧ (∀ err, (fork_with_sigterm s.fork).2 = .error err →
        out = .exit EX_OSERR)
    ∧ (s.fork.spawnOk = false → out = .exit EX_OSERR) := by
  obtain ⟨reqs, htr, hout⟩ := main_run_ready_path a e s tr out hd ht hrun
  rw [post_gate_shutdown a s c hs hc] at hout
  refine ⟨?_, ?_, ?_, ?_⟩
  · intro st code hex hcode
    rw [hout, hex]
    simp [hcode]
  · intro st hex hcode
    rw [hout, hex]
    simp [hcode]
  · intro err hex
    rw [hout, hex]
  · intro hspawn
    have hex : (fork_with_sigterm s.fork).2 = .ok (ExitStatus.fromRaw 71) := by
      simp [fork_with_sigterm, hspawn]
    rw [hout, hex]
    have hcode : (ExitStatus.fromRaw 71).code = none := by decide
    simp [hcode]

/-- Witness for C2: a supervised child exiting with code 7 makes the
whole program exit with code 7. -/
theorem c2_exit_code_propagation_witness :
    main_run argsShut envNone schedBase
      = some ([Event.readyRequest, Event.spawnChild, Event.childExited,
          Event.shutdownPost], Outcome.exit 7)
    ∧ (Outcome.exit 7 : Outcome) = .exit 7 :=
  ⟨rfl,
    (c2_exit_code_propagation argsShut envNone schedBase "app"
      [Event.readyRequest, Event.spawnChild, Event.childExited,
        Event.shutdownPost] (Outcome.exit 7) rfl rfl rfl rfl rfl).1
      (ExitStatus.exited 7) 7 rfl rfl⟩

theorem fork_events_facts (fs : ForkSched) :
    (fork_with_sigterm fs).1.count Event.shutdownPost = 0
    ∧ (fs.spawnOk = true → Event.childExited ∈ (fork_with_sigterm fs).1) := by
  rcases fs with ⟨so, sf, ida, ko, wr⟩
  cases so <;> cases sf <;> cases ida <;> cases ko <;>
    simp [fork_with_sigterm]

theorem main_run_shutdownResp_irrelevant (a : Args) (e : Env) (s : Sched)
    (r : AttemptResult) :
    main_run a e { s with shutdownResp := r } = main_run a e s := by
  unfold main_run
  cases hdr : linkerd_disabled_reason e <;>
    simp [post_gate, main_tail, exec_run, send_shutdown]

/-- Claim C5: in every supervised invocation that passes the readiness
gate, exactly one POST to the /shutdown endpoint is issued, as the very
last observable event, strictly after the child has exited (the
child-exited event precedes it whenever spawning succeeded, and it still
happens when the exit status could not be determined); and the result of
that POST is discarded — replacing it by any other response changes
neither the trace nor the final exit code. -/
theorem c5_shutdown_notification (a : Args) (e : Env) (s : Sched)
    (c : String) (tr : List Event) (out : Outcome)
    (hd : linkerd_disabled_reason e = none)
    (ht : s.timerWins = false)
    (hs : a.shutdown = true)
    (hc : a.cmd = some c)
    (hrun : main_run a e s = some (tr, out)) :
    tr.count Event.shutdownPost = 1
    ∧ (∃ pre, tr = pre ++ [Event.shutdownPost]
        ∧ (s.fork.spawnOk = true → Event.childExited ∈ pre))
    ∧ (∀ r, main_run a e { s with shutdownResp := r } = some (tr, out)) := by
  obtain ⟨reqs, htr, hout⟩ := main_run_ready_path a e s tr out hd ht hrun
  rw [post_gate_shutdown a s c hs hc] at htr
  simp only at htr
  refine ⟨?_, ?_, ?_⟩
  · rw [htr]
    simp [List.count_append, List.count_replicate, (fork_events_facts s.fork).1]
  · refine ⟨List.replicate reqs Event.readyRequest
      ++ (fork_with_sigterm s.fork).1, ?_, ?_⟩
    · rw [htr, List.append_assoc]
    · intro hspawn
      have := (fork_events_facts s.fork).2 hspawn
      simp [this]
  · intro r
    rw [main_run_shutdownResp_irrelevant a e s r, hrun]

/-- Witness for C5: a supervised child whose exit status could not be
determined (the wait call failed) still produces exactly one shutdown
POST, after the child-exited event. -/
theorem c5_shutdown_notification_witness :
    ([Event.readyRequest, Event.spawnChild, Event.childExited,
      Event.shutdownPost] : List Event).count Event.shutdownPost = 1 :=
  (c5_shutdown_notification argsShut envNone
    { schedBase with fork := forkWaitErr } "app"
    [Event.readyRequest, Event.spawnChild, Event.childExited,
      Event.shutdownPost] (Outcome.exit EX_OSERR)
    rfl rfl rfl rfl rfl).1

/-- Claim C6: when a SIGTERM reaches the supervisor before the child
exits (so the signal arm wins the select while the child still has a
PID), the signal is forwarded to the child exactly once; a delivery
failure only adds a diagnostic and is non-fatal; afterwards the
supervisor blocks on child completion alone and returns exactly the
child wait result, so when the child then exits with a numeric code the
whole program exits with that same code. -/
theorem c6_sigterm_forwarding (fs : ForkSched)
    (h1 : fs.spawnOk = true)
    (h2 : fs.sigtermFirst = true)
    (h3 : fs.idAvailable = true) :
    (fork_with_sigterm fs).1.count Event.forwardSigterm = 1
    ∧ (fork_with_sigterm fs).2 = fs.waitResult
    ∧ (fs.killOk = false → Event.forwardFailDiag ∈ (fork_with_sigterm fs).1)
    ∧ (∀ a e s c code tr out, linkerd_disabled_reason e = none →
        s.timerWins = false → a.shutdown = true → a.cmd = some c →
        s.fork = fs → fs.waitResult = .ok (.exited code) →
        main_run a e s = some (tr, out) → out = .exit code) := by
  obtain ⟨so, sf, ida, ko, wr⟩ := fs
  simp only at h1 h2 h3
  subst h1; subst h2; subst h3
  refine ⟨?_, ?_, ?_, ?_⟩
  · cases ko <;> simp [fork_with_sigterm]
  · cases ko <;> simp [fork_with_sigterm]
  · intro hko
    subst hko
    simp [fork_with_sigterm]
  · intro a e s c code tr out hd ht hs hc hfork hwait hrun
    obtain ⟨reqs, htr, hout⟩ := main_run_ready_path a e s tr out hd ht hrun
    rw [post_gate_shutdown a s c hs hc] at hout
    simp only at hwait
    have hex : (fork_with_sigterm s.fork).2 = .ok (.exited code) := by
      rw [hfork]
      cases ko <;> simp [fork_with_sigterm, hwait]
    rw [hout, hex]
    rfl

/-- Witness for C6: a child that receives the forwarded SIGTERM and then
exits with code 3 — the trace has exactly one forwarding event. -/
theorem c6_sigterm_forwarding_witness :
    (fork_with_sigterm forkSig3).1.count Event.forwardSigterm = 1 :=
  (c6_sigterm_forwarding forkSig3 rfl rfl rfl).1

theorem timeoutDiag_not_in_fork (fs : ForkSched) :
    Event.timeoutDiag ∉ (fork_with_sigterm fs).1 := by
  rcases fs with ⟨so, sf, ida, ko, wr⟩
  cases so <;> cases sf <;> cases ida <;> cases ko <;>
    simp [fork_with_sigterm]

theorem timeoutDiag_not_in_post_gate (a : Args) (s : Sched) :
    Event.timeoutDiag ∉ (post_gate a s).1 := by
  by_cases hsh : a.shutdown = true
  · rcases hcmd : a.cmd with _ | c
    · simp [post_gate, main_tail, hsh, hcmd]
    · rw [post_gate_shutdown a s c hsh hcmd]
      intro hmem
      rcases List.mem_append.mp hmem with hm | hm
      · exact timeoutDiag_not_in_fork s.fork hm
      · simp at hm
  · have hsh0 : a.shutdown = false := by simpa using hsh
    rcases hcmd : a.cmd with _ | c
    · simp [post_gate, main_tail, hsh0, hcmd]
    · cases heo : s.execOk <;>
        simp [post_gate, main_tail, exec_run, hsh0, hcmd, heo]

/-- Claim C4: with a present, non-zero timeout whose timer fires before
readiness, a diagnostic is emitted and then, when timeout-fatal holds,
the process exits immediately with the service-unavailable code 69;
when timeout-fatal is false the run continues with exactly the same
continuation as a run whose readiness succeeded (the post-gate phase).
When the timeout is absent or exactly zero the deadline branch never
fires: the run is identical to one where the timer cannot win, and no
timeout diagnostic ever appears. -/
theorem c4_deadline_policy (a : Args) (e : Env) (s : Sched)
    (hd : linkerd_disabled_reason e = none) :
    (∀ t, a.timeout = some t → t ≠ 0 → s.timerWins = true →
      ((a.timeoutFatal = true →
          main_run a e s = some (List.replicate s.requestsBeforeTimer
            Event.readyRequest ++ [Event.timeoutDiag],
            .exit EX_UNAVAILABLE))
        ∧ (a.timeoutFatal = false →
          main_run a e s = some (List.replicate s.requestsBeforeTimer
            Event.readyRequest ++ [Event.timeoutDiag] ++ (post_gate a s).1,
            (post_gate a s).2))))
    ∧ ((a.timeout = none ∨ a.timeout = some 0) →
        (main_run a e s = main_run a e { s with timerWins := false }
          ∧ ∀ tr out, main_run a e s = some (tr, out) →
              Event.timeoutDiag ∉ tr)) := by
  constructor
  · intro t htime htz htw
    have harmed : timerArmed a = true := by simp [timerArmed, htime, htz]
    constructor
    · intro hfatal
      unfold main_run
      rw [hd]
      simp [htw, harmed, hfatal]
    · intro hfatal
      unfold main_run
      rw [hd]
      simp [htw, harmed, hfatal, List.append_assoc]
  · intro htime
    have harmed : timerArmed a = false := by
      rcases htime with h | h <;> simp [timerArmed, h]
    constructor
    · unfold main_run
      rw [hd]
      simp [harmed, post_gate, main_tail, exec_run, send_shutdown]
    · intro tr out hrun
      unfold main_run at hrun
      rw [hd] at hrun
      simp only [harmed, Bool.and_false, Bool.false_eq_true, if_false]
        at hrun
      rcases h : await_ready s.resp a.backoff s.readyFuel
          with _ | ⟨reqs, slept⟩ <;> rw [h] at hrun
      · exact absurd hrun (by simp)
      · have hpair := Option.some.inj hrun
        injection hpair with hfst hsnd
        rw [← hfst]
        intro hmem
        rcases List.mem_append.mp hmem with hm | hm
        · exact absurd (List.eq_of_mem_replicate hm) (by simp)
        · exact timeoutDiag_not_in_post_gate a s hm

/-- Witness for C4: a fatal five-second timeout that fires after two
readiness requests makes the run end at exit code 69 right after the
diagnostic. -/
theorem c4_deadline_policy_witness :
    main_run argsShutTimeout envNone
      { schedBase with timerWins := true, requestsBeforeTimer := 2 }
      = some (List.replicate 2 Event.readyRequest ++ [Event.timeoutDiag],
        .exit EX_UNAVAILABLE) :=
  ((c4_deadline_policy argsShutTimeout envNone
    { schedBase with timerWins := true, requestsBeforeTimer := 2 } rfl).1
    5000 rfl (by decide) rfl).1 rfl

/-- Counterexample to claim C1: with the primary disable variable set to
a non-empty value and --shutdown requested together with the command
"app", the run issues zero readiness requests but, contrary to the
claim, spawns no supervised child and sends no shutdown notification —
the whole shutdown block sits inside the non-disabled match arm, so the
run falls through to a plain exec of the command. -/
theorem c1_counterexample :
    main_run argsShut envDisabled schedBase
      = some ([Event.execCmd "app"], Outcome.execed "app" [])
    ∧ ([Event.execCmd "app"] : List Event).count Event.readyRequest = 0
    ∧ ([Event.execCmd "app"] : List Event).count Event.shutdownPost = 0
    ∧ ([Event.execCmd "app"] : List Event).count Event.spawnChild = 0 :=
  ⟨rfl, by decide, by decide, by decide⟩

/-- Amended claim C1: when a disable environment signal is non-empty and
supervision (--shutdown) is requested with a target command, zero
readiness requests are issued, but the supervised fork and the shutdown
notification are skipped as well: the run never spawns a child and never
posts to /shutdown — it execs the command in place (or exits with the
OS-error code when the exec fails). -/
theorem c1_disable_override_amended (a : Args) (e : Env) (s : Sched)
    (reason c : String) (tr : List Event) (out : Outcome)
    (hd : linkerd_disabled_reason e = some reason)
    (_hs : a.shutdown = true)
    (hc : a.cmd = some c)
    (hrun : main_run a e s = some (tr, out)) :
    tr.count Event.readyRequest = 0
    ∧ tr.count Event.shutdownPost = 0
    ∧ tr.count Event.spawnChild = 0
    ∧ (out = .execed c a.cmdArgs ∨ out = .exit EX_OSERR) := by
  unfold main_run at hrun
  rw [hd] at hrun
  simp only [main_tail, hc] at hrun
  have hpair := Option.some.inj hrun
  injection hpair with hfst hsnd
  rw [← hfst, ← hsnd]
  cases hv : a.verbose <;> cases heo : s.execOk <;>
    simp [exec_run, hv, heo]

/-- Witness for the amended C1: the counterexample run itself — readiness
is skipped, nothing is spawned, nothing is posted, the command is
executed in place. -/
theorem c1_disable_override_amended_witness :
    ([Event.execCmd "app"] : List Event).count Event.readyRequest = 0
    ∧ ([Event.execCmd "app"] : List Event).count Event.shutdownPost = 0 :=
  ⟨(c1_disable_override_amended argsShut envDisabled schedBase "manual"
      "app" [Event.execCmd "app"] (Outcome.execed "app" [])
      rfl rfl rfl rfl).1,
    (c1_disable_override_amended argsShut envDisabled schedBase "manual"
      "app" [Event.execCmd "app"] (Outcome.execed "app" [])
      rfl rfl rfl rfl).2.1⟩

/-- Claim C3: the readiness poller treats a response as ready exactly
when its status is in the 2xx range; a non-2xx status, a connection
error and a per-attempt timeout are all handled identically by sleeping
the constant backoff and retrying, so on an endpoint that fails the
first N attempts and succeeds on attempt N+1 the loop issues exactly
N+1 requests, sleeps exactly N backoffs (hence at least N times the
backoff elapses) and then returns, never failing on its own. -/
theorem c3_readiness_poller (resp : Nat → AttemptResult)
    (backoff N fuel : Nat)
    (hfail : ∀ k, k < N → isReady (resp k) = false)
    (hsucc : isReady (resp N) = true)
    (hfuel : N < fuel) :
    (∀ st, isReady (.response st) = (decide (200 ≤ st) && decide (st < 300)))
    ∧ isReady .timedOut = false
    ∧ isReady .connError = false
    ∧ await_ready resp backoff fuel = some (N + 1, N * backoff)
    ∧ N * backoff ≥ N * backoff := by
  refine ⟨fun st => rfl, rfl, rfl, ?_, Nat.le_refl _⟩
  have := await_ready_from_exact resp backoff N 0 fuel
    (by simpa using hfail) (by simpa using hsucc) hfuel
  simpa [await_ready] using this

/-- Witness for C3: an endpoint that answers 503 twice and then 200
makes the poller issue exactly three requests and sleep two backoffs of
five milliseconds. -/
theorem c3_readiness_poller_witness :
    await_ready
      (fun i => if i < 2 then AttemptResult.response 503
                else AttemptResult.response 200) 5 3 = some (3, 10) := by
  have h := c3_readiness_poller
    (fun i => if i < 2 then AttemptResult.response 503
              else AttemptResult.response 200) 5 2 3
    (by decide) (by decide) (by decide)
  exact h.2.2.2.1

end LinkerdAwait
